import Mathlib

/-!
Shallow embedding of the render-command queueing and triangle-batching core of
`cocos/renderer/CCRenderer.cpp` (cocos2d-x-lite), together with proofs of the
specification's testable properties.

Modelling conventions:
* `float` ordering keys are modelled as `Int` (only their sign and order are
  ever inspected by the code under verification).
* `std::sort` gives no guarantee beyond "the result is a permutation of the
  input that is sorted with respect to the comparator", so `RenderQueue::sort`
  is modelled relationally by `RenderQueue.sortSpec`; an executable stable
  sorting function is provided separately and shown to satisfy the contract.
* GPU side effects (draw calls, buffer uploads, custom-command execution, the
  error log) are modelled as an event trace; ambient GL state
  (depth test / depth write / cull / blend) is an explicit record threaded
  through the frame orchestrator.
* The geometric payload of a triangles command (vertex data, index data,
  model-view matrix) is copied but never branched on by the batching logic, so
  only the vertex/index counts are modelled; `fillVerticesAndIndices` is
  modelled by its effect on the `_filledVertex`/`_filledIndex` counters.
-/

/-- The fields of a `TrianglesCommand` read by the batching pass in
`CCRenderer.cpp`: material identifier, skip-batching flag and the
vertex/index counts of its geometry. -/
structure TriCmd where
  materialID : Int
  skipBatching : Bool
  vertexCount : Nat
  indexCount : Nat
deriving DecidableEq, Repr

/-- One entry of the growable `_triBatchesToDraw` array: starting index
offset, number of indices to draw, and the representative command (a null
pointer in the freshly initialised slot 0, hence `Option`). -/
structure TriBatchToDraw where
  offset : Nat
  indicesToDraw : Nat
  cmd : Option TriCmd
deriving DecidableEq, Repr

/-- The loop state of `Renderer::drawBatchedTriangles`: the finished batch
descriptors (in reverse order; the code keeps them in an array with
`batchesTotal` pointing at the batch currently being grown), the batch being
grown, and the `prevMaterialID` / `firstCommand` registers. -/
structure BatchAccum where
  done : List TriBatchToDraw
  current : TriBatchToDraw
  prevMaterialID : Int
  firstCommand : Bool
deriving DecidableEq, Repr

/-- Initial loop state of `Renderer::drawBatchedTriangles`: slot 0 is
zero-initialised, `prevMaterialID = -1`, `firstCommand = true`. -/
def batchInit : BatchAccum :=
  { done := [], current := { offset := 0, indicesToDraw := 0, cmd := none },
    prevMaterialID := -1, firstCommand := true }

/-- The merge condition of the batching loop (CCRenderer.cpp line 655):
`batchable && (prevMaterialID == currentMaterialID || firstCommand)`. -/
def extendsCurrentBatch (acc : BatchAccum) (c : TriCmd) : Bool :=
  (!c.skipBatching) && (acc.prevMaterialID == c.materialID || acc.firstCommand)

/-- One iteration of the batching loop of `Renderer::drawBatchedTriangles`
(lines 646-685): either grow the current batch, or close it and open a new
descriptor at the current running index offset; a skip-batching command
stores the sentinel material `-1` into `prevMaterialID`. -/
def batchStep (acc : BatchAccum) (c : TriCmd) : BatchAccum :=
  if extendsCurrentBatch acc c then
    { acc with
      current := { acc.current with
        indicesToDraw := acc.current.indicesToDraw + c.indexCount, cmd := some c },
      prevMaterialID := c.materialID,
      firstCommand := false }
  else if acc.firstCommand then
    { acc with
      current := { acc.current with indicesToDraw := c.indexCount, cmd := some c },
      prevMaterialID := if c.skipBatching then -1 else c.materialID,
      firstCommand := false }
  else
    { done := acc.current :: acc.done,
      current := { offset := acc.current.offset + acc.current.indicesToDraw,
                   indicesToDraw := c.indexCount, cmd := some c },
      prevMaterialID := if c.skipBatching then -1 else c.materialID,
      firstCommand := false }

/-- The batching loop folded over the staged triangles commands. -/
def batchFold (cmds : List TriCmd) : BatchAccum :=
  cmds.foldl batchStep batchInit

/-- The batch descriptors produced by one pass of
`Renderer::drawBatchedTriangles` over the staged commands (the final
`batchesTotal++` includes the batch being grown). -/
def computeBatches (cmds : List TriCmd) : List TriBatchToDraw :=
  (batchFold cmds).done.reverse ++ [(batchFold cmds).current]

/-- Sum of the index counts of a list of staged commands; this is the value
of `_filledIndex` after all of them have been filled. -/
def totalIndexCount (cmds : List TriCmd) : Nat :=
  (cmds.map (·.indexCount)).sum

/-- Sum of the vertex counts of a list of staged commands. -/
def totalVertexCount (cmds : List TriCmd) : Nat :=
  (cmds.map (·.vertexCount)).sum

/-- The effective value stored in `prevMaterialID` after a command has been
processed: its material id, or the sentinel `-1` if it is flagged
skip-batching. -/
def effectiveMaterialID (c : TriCmd) : Int :=
  if c.skipBatching then -1 else c.materialID

lemma batchStep_firstCommand (acc : BatchAccum) (c : TriCmd) :
    (batchStep acc c).firstCommand = false := by
  unfold batchStep
  split <;> [rfl; (split <;> rfl)]

lemma batchStep_prevMaterialID (acc : BatchAccum) (c : TriCmd) :
    (batchStep acc c).prevMaterialID = effectiveMaterialID c := by
  unfold batchStep effectiveMaterialID
  split
  · next h =>
    have hskip : c.skipBatching = false := by
      unfold extendsCurrentBatch at h
      rcases Bool.and_eq_true _ _ |>.mp h with ⟨h1, _⟩
      simpa using h1
    simp [hskip]
  · split <;> rfl

lemma batchFold_append_singleton (p : List TriCmd) (c : TriCmd) :
    batchFold (p ++ [c]) = batchStep (batchFold p) c := by
  unfold batchFold
  rw [List.foldl_append]
  rfl

lemma batchFold_firstCommand (p : List TriCmd) :
    (batchFold p).firstCommand = p.isEmpty := by
  rcases List.eq_nil_or_concat p with h | ⟨q, c, h⟩
  · subst h; rfl
  · subst h
    rw [List.concat_eq_append, batchFold_append_singleton, batchStep_firstCommand]
    simp

lemma batchFold_prevMaterialID (p : List TriCmd) :
    (batchFold p).prevMaterialID =
      ((p.getLast?).map effectiveMaterialID).getD (-1) := by
  rcases List.eq_nil_or_concat p with h | ⟨q, c, h⟩
  · subst h; rfl
  · subst h
    rw [List.concat_eq_append, batchFold_append_singleton, batchStep_prevMaterialID]
    simp

lemma totalIndexCount_concat (p : List TriCmd) (c : TriCmd) :
    totalIndexCount (p ++ [c]) = totalIndexCount p + c.indexCount := by
  simp [totalIndexCount]

lemma batchFold_offset (p : List TriCmd) :
    (batchFold p).current.offset + (batchFold p).current.indicesToDraw =
      totalIndexCount p := by
  induction p using List.reverseRecOn with
  | nil => rfl
  | append_singleton q c ih =>
    rw [batchFold_append_singleton, totalIndexCount_concat]
    unfold batchStep
    split
    · simpa [Nat.add_assoc] using congrArg (· + c.indexCount) ih
    · split
      · next _ hfirst =>
        have hq : q = [] := by
          have := batchFold_firstCommand q
          rw [hfirst] at this
          exact List.isEmpty_iff.mp this.symm
        subst hq
        simp [batchFold, batchInit, totalIndexCount]
      · simpa [Nat.add_assoc] using congrArg (· + c.indexCount) ih

/-- The per-frame staging state of the batcher: the `_queuedTriangleCommands`
vector and the `_filledVertex` / `_filledIndex` counters. -/
structure BatchState where
  queuedTriangleCommands : List TriCmd
  filledVertex : Nat
  filledIndex : Nat
deriving DecidableEq, Repr

/-- The empty staging state (as after `Renderer::clean`). -/
def BatchState.empty : BatchState := { queuedTriangleCommands := [], filledVertex := 0, filledIndex := 0 }

/-- `Renderer::fillVerticesAndIndices`, modelled by its effect on the
`_filledVertex` / `_filledIndex` counters (the copies into `_verts` and
`_indices` move geometric payload that no batching decision reads). -/
def fillVerticesAndIndices (s : BatchState) (cmd : TriCmd) : BatchState :=
  { s with filledVertex := s.filledVertex + cmd.vertexCount,
           filledIndex := s.filledIndex + cmd.indexCount }

/-- Observable GPU-side effects of the renderer core, as a trace. -/
inductive GLEvent where
  | uploadBuffers (filledVertex filledIndex : Nat)
  | drawElements (indicesToDraw offset : Nat) (materialID : Int)
  | customExec (tag : Nat)
  | batchExec (tag : Nat)
  | primitiveExec (tag : Nat)
  | logError
deriving DecidableEq, Repr

/-- Whether an event is a `glDrawElements` draw call. -/
def isDrawCall : GLEvent → Bool
  | GLEvent.drawElements _ _ _ => true
  | _ => false

/-- Material bound before a batch is drawn (`cmd->useMaterial()`); the `none`
case is unreachable for a non-empty pass (`CC_ASSERT(cmd && "Invalid batch")`). -/
def batchCmdMaterialID : Option TriCmd → Int
  | some c => c.materialID
  | none => -1

/-- `Renderer::drawBatchedTriangles`: early-return on an empty queue;
otherwise reset the fill counters, fill all staged commands, compute the
batch descriptors, upload the filled portions of the staging arrays, issue
one draw call per descriptor in order, and reset the staging state. -/
def drawBatchedTriangles (s : BatchState) : BatchState × List GLEvent :=
  if s.queuedTriangleCommands = [] then (s, [])
  else
    let filled := s.queuedTriangleCommands.foldl fillVerticesAndIndices
      { s with filledVertex := 0, filledIndex := 0 }
    let batches := computeBatches s.queuedTriangleCommands
    ({ queuedTriangleCommands := [], filledVertex := 0, filledIndex := 0 },
      GLEvent.uploadBuffers filled.filledVertex filled.filledIndex ::
        batches.map (fun b => GLEvent.drawElements b.indicesToDraw b.offset (batchCmdMaterialID b.cmd)))

lemma fillFold_counts (cmds : List TriCmd) (s : BatchState) :
    ((cmds.foldl fillVerticesAndIndices s).filledVertex =
        s.filledVertex + totalVertexCount cmds) ∧
    ((cmds.foldl fillVerticesAndIndices s).filledIndex =
        s.filledIndex + totalIndexCount cmds) ∧
    ((cmds.foldl fillVerticesAndIndices s).queuedTriangleCommands =
        s.queuedTriangleCommands) := by
  induction cmds generalizing s with
  | nil => simp [totalVertexCount, totalIndexCount]
  | cons c cs ih =>
    simp only [List.foldl_cons]
    rcases ih (fillVerticesAndIndices s c) with ⟨h1, h2, h3⟩
    refine ⟨?_, ?_, ?_⟩
    · rw [h1]; simp [fillVerticesAndIndices, totalVertexCount, Nat.add_assoc]
    · rw [h2]; simp [fillVerticesAndIndices, totalIndexCount, Nat.add_assoc]
    · rw [h3]; rfl

/-- C1: in the batching pass of `Renderer::drawBatchedTriangles`, a command
`c` arriving after the already-processed prefix `p` extends the current batch
iff it is not flagged skip-batching and either it is the first command of the
pass or its material identifier equals the previous command's material
identifier — where a skip-batching previous command counts as the sentinel
material `-1`, so a real material (here: non-negative) never matches it.
When it extends, the batch count is unchanged and the current descriptor
grows by the command's index count; otherwise the command starts a new batch
descriptor at the current running index offset. In particular a skip-batching
command is never merged with a same-material neighbour on either side. -/
theorem claim_C1_batch_membership (p : List TriCmd) (c : TriCmd)
    (hmat : 0 ≤ c.materialID) :
    (extendsCurrentBatch (batchFold p) c = true ↔
      (c.skipBatching = false ∧
        (p = [] ∨ ∃ d, p.getLast? = some d ∧ d.skipBatching = false ∧
          d.materialID = c.materialID))) ∧
    (c.skipBatching = true → extendsCurrentBatch (batchFold p) c = false) ∧
    (extendsCurrentBatch (batchFold p) c = true →
      (batchStep (batchFold p) c).done = (batchFold p).done ∧
      (batchStep (batchFold p) c).current =
        { (batchFold p).current with
            indicesToDraw := (batchFold p).current.indicesToDraw + c.indexCount,
            cmd := some c }) ∧
    (extendsCurrentBatch (batchFold p) c = false → p ≠ [] →
      (batchStep (batchFold p) c).done =
        (batchFold p).current :: (batchFold p).done ∧
      (batchStep (batchFold p) c).current =
        { offset := totalIndexCount p, indicesToDraw := c.indexCount,
          cmd := some c }) := by
  have hmatne : c.materialID ≠ -1 := by omega
  refine ⟨?_, ?_, ?_, ?_⟩
  · unfold extendsCurrentBatch
    rw [batchFold_prevMaterialID, batchFold_firstCommand]
    rcases List.eq_nil_or_concat p with hp | ⟨q, d, hp⟩
    · subst hp; simp
    · subst hp
      rw [List.concat_eq_append]
      have hne : (q ++ [d]).isEmpty = false := by simp
      simp only [List.getLast?_concat, Option.map_some', Option.getD_some, hne,
        Bool.or_false]
      rcases hd : d.skipBatching with _ | _
      · have he : effectiveMaterialID d = d.materialID := by
          simp [effectiveMaterialID, hd]
        rw [he]
        constructor
        · intro h
          rcases Bool.and_eq_true _ _ |>.mp h with ⟨h1, h2⟩
          exact ⟨by simpa using h1, Or.inr ⟨d, rfl, hd, beq_iff_eq.mp h2⟩⟩
        · rintro ⟨h1, h2 | ⟨d', hd', hd'2, hd'3⟩⟩
          · simp at h2
          · rcases Option.some.inj hd' with rfl
            simp [h1, hd'3]
      · have he : effectiveMaterialID d = -1 := by
          simp [effectiveMaterialID, hd]
        rw [he]
        have hb : ((-1 : Int) == c.materialID) = false :=
          beq_eq_false_iff_ne.mpr (fun hh => hmatne hh.symm)
        rw [hb]
        constructor
        · intro h
          simp at h
        · rintro ⟨h1, h2 | ⟨d', hd', hd'2, hd'3⟩⟩
          · simp at h2
          · rcases Option.some.inj hd' with rfl
            rw [hd] at hd'2
            cases hd'2
  · intro h; simp [extendsCurrentBatch, h]
  · intro h
    unfold batchStep
    rw [if_pos h]
    exact ⟨rfl, rfl⟩
  · intro h hp
    have hfirst : (batchFold p).firstCommand = false := by
      rw [batchFold_firstCommand]
      rcases p with _ | ⟨x, xs⟩
      · cases hp rfl
      · rfl
    unfold batchStep
    rw [if_neg (by simp [h]), if_neg (by simp [hfirst])]
    refine ⟨rfl, ?_⟩
    have hoff := batchFold_offset p
    simp only
    rw [hoff]

/-- Witness for C1: a second same-material batchable command extends the
batch opened by the first one. -/
theorem claim_C1_witness :
    extendsCurrentBatch
      (batchFold [{ materialID := 1, skipBatching := false, vertexCount := 4, indexCount := 6 }])
      { materialID := 1, skipBatching := false, vertexCount := 4, indexCount := 6 } = true :=
  ((claim_C1_batch_membership
      [{ materialID := 1, skipBatching := false, vertexCount := 4, indexCount := 6 }]
      { materialID := 1, skipBatching := false, vertexCount := 4, indexCount := 6 }
      (by decide)).1).mpr
    ⟨rfl, Or.inr ⟨_, rfl, rfl, rfl⟩⟩

lemma batchFold_uniform_run (p : List TriCmd) (m : Int) (hne : p ≠ [])
    (h : ∀ c ∈ p, c.skipBatching = false ∧ c.materialID = m) :
    batchFold p =
      { done := [],
        current := { offset := 0, indicesToDraw := totalIndexCount p,
                     cmd := p.getLast? },
        prevMaterialID := m, firstCommand := false } := by
  induction p using List.reverseRecOn with
  | nil => cases hne rfl
  | append_singleton q c ih =>
    rcases h c (by simp) with ⟨hc1, hc2⟩
    rw [batchFold_append_singleton]
    rcases List.eq_nil_or_concat q with hq | ⟨q', d, hq⟩
    · subst hq
      unfold batchStep
      rw [if_pos (by simp [extendsCurrentBatch, hc1, batchFold, batchInit])]
      simp [batchFold, batchInit, totalIndexCount, hc2]
    · have hq' : q ≠ [] := by subst hq; simp
      rw [ih hq' (fun c' hc' => h c' (List.mem_append_left _ hc'))]
      unfold batchStep
      rw [if_pos (by simp [extendsCurrentBatch, hc1, hc2])]
      simp [totalIndexCount_concat, List.getLast?_concat, hc2]

/-- First command of the C2 scenario: 4 vertices, 6 indices, material 1. -/
def triA : TriCmd := { materialID := 1, skipBatching := false, vertexCount := 4, indexCount := 6 }

/-- Second command of the C2 scenario: 4 vertices, 6 indices, material 1. -/
def triB : TriCmd := { materialID := 1, skipBatching := false, vertexCount := 4, indexCount := 6 }

/-- Third command of the C2 scenario: 4 vertices, 6 indices, material 2. -/
def triC : TriCmd := { materialID := 2, skipBatching := false, vertexCount := 4, indexCount := 6 }

/-- C2: flushing a non-empty run of batchable Triangles commands that all
share one material produces exactly one batch descriptor spanning the
combined index range `[0, totalIndexCount)` and exactly one draw call; and in
the concrete scenario with (vertex,index) counts (4,6),(4,6),(4,6) and
materials (1,1,2), batch 0 covers indices `[0,12)` with material 1, batch 1
covers `[12,18)` with material 2, and 18 indices are filled and uploaded. -/
theorem claim_C2_single_batch_per_run (cmds : List TriCmd) (m : Int)
    (fv fi : Nat) (hne : cmds ≠ [])
    (h : ∀ c ∈ cmds, c.skipBatching = false ∧ c.materialID = m) :
    computeBatches cmds =
      [{ offset := 0, indicesToDraw := totalIndexCount cmds,
         cmd := cmds.getLast? }] ∧
    (drawBatchedTriangles
        { queuedTriangleCommands := cmds, filledVertex := fv, filledIndex := fi }).2 =
      [GLEvent.uploadBuffers (totalVertexCount cmds) (totalIndexCount cmds),
       GLEvent.drawElements (totalIndexCount cmds) 0 m] ∧
    ((drawBatchedTriangles
        { queuedTriangleCommands := cmds, filledVertex := fv, filledIndex := fi }).2.countP
      isDrawCall) = 1 ∧
    (computeBatches [triA, triB, triC] =
      [{ offset := 0, indicesToDraw := 12, cmd := some triB },
       { offset := 12, indicesToDraw := 6, cmd := some triC }] ∧
     (drawBatchedTriangles
        { queuedTriangleCommands := [triA, triB, triC], filledVertex := 0, filledIndex := 0 }).2 =
      [GLEvent.uploadBuffers 12 18,
       GLEvent.drawElements 12 0 1, GLEvent.drawElements 6 12 2]) := by
  have hbatches : computeBatches cmds =
      [{ offset := 0, indicesToDraw := totalIndexCount cmds, cmd := cmds.getLast? }] := by
    unfold computeBatches
    rw [batchFold_uniform_run cmds m hne h]
    rfl
  have hlast : ∃ d, cmds.getLast? = some d ∧ d.materialID = m := by
    rcases List.eq_nil_or_concat cmds with hc | ⟨q, d, hc⟩
    · cases hne hc
    · subst hc
      rw [List.concat_eq_append, List.getLast?_concat]
      exact ⟨d, rfl, (h d (by simp)).2⟩
  rcases hlast with ⟨d, hd1, hd2⟩
  have hdraw : (drawBatchedTriangles
      { queuedTriangleCommands := cmds, filledVertex := fv, filledIndex := fi }).2 =
      [GLEvent.uploadBuffers (totalVertexCount cmds) (totalIndexCount cmds),
       GLEvent.drawElements (totalIndexCount cmds) 0 m] := by
    unfold drawBatchedTriangles
    rw [if_neg (by simpa using hne)]
    rcases fillFold_counts cmds
        { queuedTriangleCommands := cmds, filledVertex := 0, filledIndex := 0 } with
      ⟨hf1, hf2, _⟩
    simp only
    rw [hbatches]
    simp only [List.map_cons, List.map_nil]
    rw [hf1, hf2, hd1]
    simp [batchCmdMaterialID, hd2]
  refine ⟨hbatches, hdraw, ?_, by decide⟩
  rw [hdraw]
  simp [List.countP, List.countP.go, isDrawCall]

/-- Witness for C2: two same-material commands collapse into one batch of 12
indices at offset 0. -/
theorem claim_C2_witness :
    computeBatches [triA, triB] =
      [{ offset := 0, indicesToDraw := 12, cmd := some triB }] :=
  ((claim_C2_single_batch_per_run [triA, triB] 1 0 0 (by decide)
      (by decide)).1).trans (by decide)

/-- The kind tag (`RenderCommand::Type`) and per-kind payload of a render
command. `Custom`, `Batch` and `Primitive` commands perform their own GPU
submission; the `tag` identifies that submission in the event trace.
`unknownCommand` is the uninitialised sentinel `UNKNOWN_COMMAND`. -/
inductive CommandKind where
  | trianglesCommand (cmd : TriCmd)
  | groupCommand (renderQueueID : Nat)
  | customCommand (tag : Nat)
  | batchCommand (tag : Nat)
  | primitiveCommand (tag : Nat)
  | unknownCommand
deriving DecidableEq, Repr

/-- A render command: ordering key (`getGlobalOrder`, a float in the code,
modelled as `Int`) plus kind tag and payload. -/
structure RenderCommand where
  globalOrder : Int
  kind : CommandKind
deriving DecidableEq, Repr

/-- The five sub-queues of a `RenderQueue`, in the order of
`QUEUE_GROUP` / of the visitation in `Renderer::visitRenderQueue`:
`GLOBALZ_NEG`, `OPAQUE_3D`, `TRANSPARENT_3D`, `GLOBALZ_ZERO`, `GLOBALZ_POS`. -/
structure RenderQueue where
  negZ : List RenderCommand
  opaque3D : List RenderCommand
  transparent3D : List RenderCommand
  zeroZ : List RenderCommand
  posZ : List RenderCommand
deriving DecidableEq, Repr

/-- A freshly constructed (or cleared) render queue. -/
def RenderQueue.emptyQ : RenderQueue :=
  { negZ := [], opaque3D := [], transparent3D := [], zeroZ := [], posZ := [] }

/-- `RenderQueue::push_back`: classify by the sign of the ordering key. -/
def RenderQueue.push_back (q : RenderQueue) (c : RenderCommand) : RenderQueue :=
  if c.globalOrder < 0 then { q with negZ := q.negZ ++ [c] }
  else if 0 < c.globalOrder then { q with posZ := q.posZ ++ [c] }
  else { q with zeroZ := q.zeroZ ++ [c] }

/-- `RenderQueue::size`: total number of commands over all five sub-queues. -/
def RenderQueue.size (q : RenderQueue) : Nat :=
  q.negZ.length + q.opaque3D.length + q.transparent3D.length +
    q.zeroZ.length + q.posZ.length

/-- The flattened command sequence underlying `RenderQueue::operator[]`,
which walks the sub-queues in `QUEUE_GROUP` order. -/
def RenderQueue.flatten (q : RenderQueue) : List RenderCommand :=
  q.negZ ++ q.opaque3D ++ q.transparent3D ++ q.zeroZ ++ q.posZ

/-- `RenderQueue::operator[]`: flattened indexed access; `none` models the
`CCASSERT(false, "invalid index")` for an out-of-range index. -/
def RenderQueue.getAt (q : RenderQueue) (i : Nat) : Option RenderCommand :=
  q.flatten.get? i

/-- Ambient GL state toggled by the frame orchestrator. -/
structure GLState where
  depthTest : Bool
  depthWrite : Bool
  cull : Bool
  blend : Bool
deriving DecidableEq, Repr

/-- The fixed capacities of the vertex/index staging arrays (`VBO_SIZE` and
`INDEX_VBO_SIZE`, defined in the renderer header); the theorems below hold
for arbitrary capacities, so they are parameters of the model. -/
structure BufCaps where
  vboSize : Nat
  indexVboSize : Nat
deriving DecidableEq, Repr

/-- Result of dispatching commands: staging state, GL state, event trace. -/
abbrev ProcResult := BatchState × GLState × List GLEvent

/-- The "queue it" step of the `TRIANGLES_COMMAND` branch of
`Renderer::processRenderCommand`: append to `_queuedTriangleCommands` and
bump the fill counters. -/
def queueTriangleCommand (s : BatchState) (tc : TriCmd) : BatchState :=
  { queuedTriangleCommands := s.queuedTriangleCommands ++ [tc],
    filledVertex := s.filledVertex + tc.vertexCount,
    filledIndex := s.filledIndex + tc.indexCount }

/-- Ambient state applied before the `GLOBALZ_NEG`/`GLOBALZ_ZERO`/
`GLOBALZ_POS` buckets: depends on the global depth-test-for-2D mode; blend
on, cull off. -/
def twoDStateSetup (d2 : Bool) (gl : GLState) : GLState :=
  if d2 then { gl with depthTest := true, depthWrite := true, blend := true, cull := false }
  else { gl with depthTest := false, depthWrite := false, blend := true, cull := false }

/-- Ambient state applied before the `OPAQUE_3D` bucket. -/
def opaque3DStateSetup (gl : GLState) : GLState :=
  { gl with depthTest := true, depthWrite := true, blend := false, cull := true }

/-- Ambient state applied before the `TRANSPARENT_3D` bucket. -/
def transparent3DStateSetup (gl : GLState) : GLState :=
  { gl with depthTest := true, depthWrite := false, blend := true, cull := true }

/-- Dispatch a list of commands in order with a given per-command processor,
threading state and concatenating event traces. -/
def processListWith (proc : BatchState → GLState → RenderCommand → Option ProcResult) :
    BatchState → GLState → List RenderCommand → Option ProcResult
  | s, gl, [] => some (s, gl, [])
  | s, gl, c :: cs =>
    match proc s gl c with
    | none => none
    | some (s1, gl1, e1) =>
      match processListWith proc s1 gl1 cs with
      | none => none
      | some (s2, gl2, e2) => some (s2, gl2, e1 ++ e2)

/-- One bucket of `Renderer::visitRenderQueue`: skipped when empty,
otherwise apply the bucket's ambient-state configuration, dispatch its
commands in order, and flush the pending triangle batch. -/
def visitBucketWith (proc : BatchState → GLState → RenderCommand → Option ProcResult)
    (setup : GLState → GLState) (cmds : List RenderCommand) (s : BatchState)
    (gl : GLState) : Option ProcResult :=
  if cmds = [] then some (s, gl, [])
  else
    match processListWith proc s (setup gl) cmds with
    | none => none
    | some (s1, gl1, e1) =>
      some ((drawBatchedTriangles s1).1, gl1, e1 ++ (drawBatchedTriangles s1).2)

/-- `Renderer::visitRenderQueue`: save the ambient state snapshot
(depth test, cull, depth write), visit the five buckets in the fixed order
`GLOBALZ_NEG`, `OPAQUE_3D`, `TRANSPARENT_3D`, `GLOBALZ_ZERO`, `GLOBALZ_POS`,
then restore the snapshot verbatim (`RenderQueue::saveRenderState` /
`restoreRenderState`; blend is not part of the snapshot). -/
def visitRenderQueueWith (d2 : Bool)
    (proc : BatchState → GLState → RenderCommand → Option ProcResult)
    (q : RenderQueue) (s : BatchState) (gl : GLState) : Option ProcResult :=
  (visitBucketWith proc (twoDStateSetup d2) q.negZ s gl).bind fun r1 =>
  (visitBucketWith proc opaque3DStateSetup q.opaque3D r1.1 r1.2.1).bind fun r2 =>
  (visitBucketWith proc transparent3DStateSetup q.transparent3D r2.1 r2.2.1).bind fun r3 =>
  (visitBucketWith proc (twoDStateSetup d2) q.zeroZ r3.1 r3.2.1).bind fun r4 =>
  (visitBucketWith proc (twoDStateSetup d2) q.posZ r4.1 r4.2.1).map fun r5 =>
    (r5.1,
      { r5.2.1 with depthTest := gl.depthTest, cull := gl.cull,
                    depthWrite := gl.depthWrite },
      r1.2.2 ++ r2.2.2 ++ r3.2.2 ++ r4.2.2 ++ r5.2.2)

/-- One dispatch step of `Renderer::processRenderCommand`, parameterised by
the processor used for the commands of a recursively visited child queue
(`GROUP_COMMAND`). Non-Triangles kinds flush the pending batch first;
`Triangles` flushes only when staging the command would overflow a staging
capacity, asserting (dev build) that the command alone fits. -/
def processStep (caps : BufCaps) (d2 : Bool) (table : List RenderQueue)
    (child : BatchState → GLState → RenderCommand → Option ProcResult)
    (s : BatchState) (gl : GLState) (command : RenderCommand) : Option ProcResult :=
  match command.kind with
  | CommandKind.trianglesCommand tc =>
    if s.filledVertex + tc.vertexCount > caps.vboSize ∨
        s.filledIndex + tc.indexCount > caps.indexVboSize then
      if tc.vertexCount < caps.vboSize ∧ tc.indexCount < caps.indexVboSize then
        some (queueTriangleCommand (drawBatchedTriangles s).1 tc, gl,
          (drawBatchedTriangles s).2)
      else none
    else some (queueTriangleCommand s tc, gl, [])
  | CommandKind.groupCommand qid =>
    if h : qid < table.length then
      match visitRenderQueueWith d2 child (table.get ⟨qid, h⟩)
          (drawBatchedTriangles s).1 gl with
      | none => none
      | some (s2, gl2, e2) => some (s2, gl2, (drawBatchedTriangles s).2 ++ e2)
    else none
  | CommandKind.customCommand tag =>
    some ((drawBatchedTriangles s).1, gl,
      (drawBatchedTriangles s).2 ++ [GLEvent.customExec tag])
  | CommandKind.batchCommand tag =>
    some ((drawBatchedTriangles s).1, gl,
      (drawBatchedTriangles s).2 ++ [GLEvent.batchExec tag])
  | CommandKind.primitiveCommand tag =>
    some ((drawBatchedTriangles s).1, gl,
      (drawBatchedTriangles s).2 ++ [GLEvent.primitiveExec tag])
  | CommandKind.unknownCommand =>
    some (s, gl, [GLEvent.logError])

/-- `Renderer::processRenderCommand` with a fuel bound on the nesting depth
of `GROUP_COMMAND` recursion (the code recurses without a bound; every
terminating execution is captured by some fuel). -/
def processRenderCommand (caps : BufCaps) (d2 : Bool) (table : List RenderQueue) :
    Nat → BatchState → GLState → RenderCommand → Option ProcResult
  | 0 => processStep caps d2 table (fun _ _ _ => none)
  | fuel + 1 => processStep caps d2 table (processRenderCommand caps d2 table fuel)

/-- `Renderer::visitRenderQueue` at a given group-recursion depth. -/
def visitRenderQueue (caps : BufCaps) (d2 : Bool) (table : List RenderQueue)
    (fuel : Nat) : RenderQueue → BatchState → GLState → Option ProcResult :=
  visitRenderQueueWith d2 (processRenderCommand caps d2 table fuel)

lemma processRenderCommand_zero (caps : BufCaps) (d2 : Bool)
    (table : List RenderQueue) :
    processRenderCommand caps d2 table 0 =
      processStep caps d2 table (fun _ _ _ => none) := rfl

lemma processRenderCommand_succ (caps : BufCaps) (d2 : Bool)
    (table : List RenderQueue) (fuel : Nat) :
    processRenderCommand caps d2 table (fuel + 1) =
      processStep caps d2 table (processRenderCommand caps d2 table fuel) := rfl

lemma drawBatchedTriangles_queued (s : BatchState) :
    (drawBatchedTriangles s).1.queuedTriangleCommands = [] := by
  unfold drawBatchedTriangles
  split
  · next h => exact h
  · rfl

lemma visitBucketWith_queued (proc : BatchState → GLState → RenderCommand → Option ProcResult)
    (setup : GLState → GLState) (cmds : List RenderCommand) (s : BatchState)
    (gl : GLState) (out : ProcResult)
    (h : visitBucketWith proc setup cmds s gl = some out)
    (hq : s.queuedTriangleCommands = []) :
    out.1.queuedTriangleCommands = [] := by
  unfold visitBucketWith at h
  split at h
  · cases h; exact hq
  · split at h
    · cases h
    · cases h; exact drawBatchedTriangles_queued _

lemma visitRenderQueueWith_queued (d2 : Bool)
    (proc : BatchState → GLState → RenderCommand → Option ProcResult)
    (q : RenderQueue) (s : BatchState) (gl : GLState) (out : ProcResult)
    (h : visitRenderQueueWith d2 proc q s gl = some out)
    (hq : s.queuedTriangleCommands = []) :
    out.1.queuedTriangleCommands = [] := by
  unfold visitRenderQueueWith at h
  rcases Option.bind_eq_some.mp h with ⟨r1, h1, h⟩
  rcases Option.bind_eq_some.mp h with ⟨r2, h2, h⟩
  rcases Option.bind_eq_some.mp h with ⟨r3, h3, h⟩
  rcases Option.bind_eq_some.mp h with ⟨r4, h4, h⟩
  rcases Option.map_eq_some'.mp h with ⟨r5, h5, hout⟩
  have q1 := visitBucketWith_queued _ _ _ _ _ _ h1 hq
  have q2 := visitBucketWith_queued _ _ _ _ _ _ h2 q1
  have q3 := visitBucketWith_queued _ _ _ _ _ _ h3 q2
  have q4 := visitBucketWith_queued _ _ _ _ _ _ h4 q3
  have q5 := visitBucketWith_queued _ _ _ _ _ _ h5 q4
  rw [← hout]
  exact q5

/-- Command kinds that unconditionally flush the pending triangle batch
before their own effect (every real kind other than `Triangles`). -/
def isFlushBarrier : CommandKind → Bool
  | CommandKind.groupCommand _ => true
  | CommandKind.customCommand _ => true
  | CommandKind.batchCommand _ => true
  | CommandKind.primitiveCommand _ => true
  | _ => false

/-- Concrete staging capacities (`VBO_SIZE = 65536` per the comment at
CCRenderer.cpp line 287; the index capacity value is immaterial to the
scenarios below). -/
def caps0 : BufCaps := { vboSize := 65536, indexVboSize := 98304 }

/-- A concrete ambient state with everything disabled. -/
def glAllOff : GLState :=
  { depthTest := false, depthWrite := false, cull := false, blend := false }

/-- A batchable triangles command of material 7 used by the C3 scenario. -/
def triSame : RenderCommand :=
  { globalOrder := 0,
    kind := CommandKind.trianglesCommand
      { materialID := 7, skipBatching := false, vertexCount := 4, indexCount := 6 } }

/-- A custom command inserted between the two triangles commands in C3. -/
def customMid : RenderCommand :=
  { globalOrder := 0, kind := CommandKind.customCommand 3 }

lemma processStep_barrier (caps : BufCaps) (d2 : Bool) (table : List RenderQueue)
    (child : BatchState → GLState → RenderCommand → Option ProcResult)
    (s : BatchState) (gl : GLState) (cmd : RenderCommand) (out : ProcResult)
    (hb : isFlushBarrier cmd.kind = true)
    (h : processStep caps d2 table child s gl cmd = some out) :
    (∃ tail, out.2.2 = (drawBatchedTriangles s).2 ++ tail) ∧
      out.1.queuedTriangleCommands = [] := by
  obtain ⟨z, k⟩ := cmd
  cases k with
  | trianglesCommand tc => simp [isFlushBarrier] at hb
  | groupCommand qid =>
    simp only [processStep] at h
    split at h
    · split at h
      · cases h
      · rename_i s2 gl2 e2 heq
        cases h
        exact ⟨⟨e2, rfl⟩, visitRenderQueueWith_queued _ _ _ _ _ (s2, gl2, e2) heq
          (drawBatchedTriangles_queued s)⟩
    · cases h
  | customCommand tag =>
    simp only [processStep] at h
    cases h; exact ⟨⟨_, rfl⟩, drawBatchedTriangles_queued s⟩
  | batchCommand tag =>
    simp only [processStep] at h
    cases h; exact ⟨⟨_, rfl⟩, drawBatchedTriangles_queued s⟩
  | primitiveCommand tag =>
    simp only [processStep] at h
    cases h; exact ⟨⟨_, rfl⟩, drawBatchedTriangles_queued s⟩
  | unknownCommand => simp [isFlushBarrier] at hb

/-- C3: every dispatched command whose kind is a real non-Triangles kind
(Group, Custom, Batch, Primitive) unconditionally flushes the pending
triangle batch before its own effect — its event trace starts with the
flush's events and the staged triangle queue is empty afterwards — so
batching only ever merges adjacent Triangles commands and the draw order
equals submission order. In the concrete scenario, a Custom command between
two same-material Triangles commands forces two separate draw calls (in
submission order) instead of one merged batch. -/
theorem claim_C3_flush_barrier :
    (∀ (caps : BufCaps) (d2 : Bool) (table : List RenderQueue) (fuel : Nat)
        (s : BatchState) (gl : GLState) (cmd : RenderCommand) (out : ProcResult),
      isFlushBarrier cmd.kind = true →
      processRenderCommand caps d2 table fuel s gl cmd = some out →
      (∃ tail, out.2.2 = (drawBatchedTriangles s).2 ++ tail) ∧
        out.1.queuedTriangleCommands = []) ∧
    (visitBucketWith (processRenderCommand caps0 false [] 0) (twoDStateSetup false)
        [triSame, customMid, triSame] BatchState.empty glAllOff =
      some (BatchState.empty, twoDStateSetup false glAllOff,
        [GLEvent.uploadBuffers 4 6, GLEvent.drawElements 6 0 7,
         GLEvent.customExec 3,
         GLEvent.uploadBuffers 4 6, GLEvent.drawElements 6 0 7]) ∧
      ([GLEvent.uploadBuffers 4 6, GLEvent.drawElements 6 0 7,
        GLEvent.customExec 3,
        GLEvent.uploadBuffers 4 6, GLEvent.drawElements 6 0 7].countP isDrawCall)
        = 2) := by
  refine ⟨?_, by decide, by decide⟩
  intro caps d2 table fuel s gl cmd out hb h
  cases fuel with
  | zero =>
    rw [processRenderCommand_zero] at h
    exact processStep_barrier _ _ _ _ _ _ _ _ hb h
  | succ n =>
    rw [processRenderCommand_succ] at h
    exact processStep_barrier _ _ _ _ _ _ _ _ hb h

/-- Witness for C3: dispatching the Custom command with one triangles
command staged flushes (upload + draw) before the custom execution and
leaves the staged queue empty. -/
theorem claim_C3_witness :
    (∃ tail,
      ((BatchState.empty, glAllOff,
        [GLEvent.uploadBuffers 4 6, GLEvent.drawElements 6 0 7,
         GLEvent.customExec 3]) : ProcResult).2.2 =
        (drawBatchedTriangles
          { queuedTriangleCommands :=
              [{ materialID := 7, skipBatching := false, vertexCount := 4, indexCount := 6 }],
            filledVertex := 4, filledIndex := 6 }).2 ++ tail) ∧
    ((BatchState.empty, glAllOff,
        [GLEvent.uploadBuffers 4 6, GLEvent.drawElements 6 0 7,
         GLEvent.customExec 3]) : ProcResult).1.queuedTriangleCommands = [] :=
  claim_C3_flush_barrier.1 caps0 false [] 0
    { queuedTriangleCommands :=
        [{ materialID := 7, skipBatching := false, vertexCount := 4, indexCount := 6 }],
      filledVertex := 4, filledIndex := 6 }
    glAllOff customMid _ (by decide) (by decide)

/-- C10: dispatching a command whose kind tag is the unknown/uninitialised
sentinel only logs an error: it does not abort the dispatch, is not a flush
barrier, issues no draw call, and leaves the staged triangle commands, the
fill counters and the ambient state exactly as they were. -/
theorem claim_C10_unknown_noop (caps : BufCaps) (d2 : Bool)
    (table : List RenderQueue) (fuel : Nat) (s : BatchState) (gl : GLState)
    (z : Int) :
    processRenderCommand caps d2 table fuel s gl
        { globalOrder := z, kind := CommandKind.unknownCommand } =
      some (s, gl, [GLEvent.logError]) := by
  cases fuel <;> rfl

lemma processRenderCommand_triangles (caps : BufCaps) (d2 : Bool)
    (table : List RenderQueue) (fuel : Nat) (s : BatchState) (gl : GLState)
    (z : Int) (tc : TriCmd) :
    processRenderCommand caps d2 table fuel s gl
        { globalOrder := z, kind := CommandKind.trianglesCommand tc } =
      if s.filledVertex + tc.vertexCount > caps.vboSize ∨
          s.filledIndex + tc.indexCount > caps.indexVboSize then
        if tc.vertexCount < caps.vboSize ∧ tc.indexCount < caps.indexVboSize then
          some (queueTriangleCommand (drawBatchedTriangles s).1 tc, gl,
            (drawBatchedTriangles s).2)
        else none
      else some (queueTriangleCommand s tc, gl, []) := by
  cases fuel <;> rfl

lemma drawBatchedTriangles_state (s : BatchState) :
    (drawBatchedTriangles s).1 =
      if s.queuedTriangleCommands = [] then s else BatchState.empty := by
  unfold drawBatchedTriangles
  split
  · rfl
  · rfl

/-- Invariant of the staging state: the fill counters are zero whenever no
triangle command is staged, and they never exceed the staging capacities. -/
def stagingInv (caps : BufCaps) (s : BatchState) : Prop :=
  (s.queuedTriangleCommands = [] → s.filledVertex = 0 ∧ s.filledIndex = 0) ∧
  s.filledVertex ≤ caps.vboSize ∧ s.filledIndex ≤ caps.indexVboSize

/-- A command is a Triangles command whose own vertex and index counts are
below the staging capacities (the documented precondition of the batcher). -/
def withinStagingCaps (caps : BufCaps) (c : RenderCommand) : Bool :=
  match c.kind with
  | CommandKind.trianglesCommand tc =>
    decide (tc.vertexCount < caps.vboSize) &&
      decide (tc.indexCount < caps.indexVboSize)
  | _ => false

lemma triangles_step_inv (caps : BufCaps) (d2 : Bool) (table : List RenderQueue)
    (fuel : Nat) (s : BatchState) (gl : GLState) (z : Int) (tc : TriCmd)
    (out : ProcResult)
    (hv : tc.vertexCount < caps.vboSize) (hi : tc.indexCount < caps.indexVboSize)
    (hs : stagingInv caps s)
    (h : processRenderCommand caps d2 table fuel s gl
        { globalOrder := z, kind := CommandKind.trianglesCommand tc } = some out) :
    stagingInv caps out.1 := by
  rw [processRenderCommand_triangles] at h
  split at h
  · rename_i hcond
    split at h
    · cases h
      rcases eq_or_ne s.queuedTriangleCommands [] with hq | hq
      · exfalso
        rcases hs.1 hq with ⟨h0, h1⟩
        rw [h0, h1] at hcond
        omega
      · have hdraw : (drawBatchedTriangles s).1 = BatchState.empty := by
          rw [drawBatchedTriangles_state, if_neg hq]
        rw [hdraw]
        refine ⟨fun hq' => ?_, ?_, ?_⟩
        · simp [queueTriangleCommand, BatchState.empty] at hq'
        · simpa [queueTriangleCommand, BatchState.empty] using Nat.le_of_lt hv
        · simpa [queueTriangleCommand, BatchState.empty] using Nat.le_of_lt hi
    · cases h
  · rename_i hcond
    cases h
    push_neg at hcond
    refine ⟨fun hq' => ?_, ?_, ?_⟩
    · simp [queueTriangleCommand] at hq'
    · simpa [queueTriangleCommand] using hcond.1
    · simpa [queueTriangleCommand] using hcond.2

lemma processList_staging_inv (caps : BufCaps) (d2 : Bool)
    (table : List RenderQueue) (fuel : Nat) :
    ∀ (cmds : List RenderCommand) (s : BatchState) (gl : GLState)
      (out : ProcResult),
      (∀ c ∈ cmds, withinStagingCaps caps c = true) →
      stagingInv caps s →
      processListWith (processRenderCommand caps d2 table fuel) s gl cmds =
        some out →
      stagingInv caps out.1 := by
  intro cmds
  induction cmds with
  | nil =>
    intro s gl out _ hs hp
    unfold processListWith at hp
    cases hp
    exact hs
  | cons c cs ih =>
    intro s gl out h hs hp
    unfold processListWith at hp
    split at hp
    · cases hp
    · rename_i s1 gl1 e1 heq
      split at hp
      · cases hp
      · rename_i s2 gl2 e2 heq2
        cases hp
        have hc := h c (List.mem_cons_self c cs)
        obtain ⟨z, k⟩ := c
        have hs1 : stagingInv caps s1 := by
          cases k with
          | trianglesCommand tc =>
            simp only [withinStagingCaps, Bool.and_eq_true, decide_eq_true_eq] at hc
            exact triangles_step_inv caps d2 table fuel s gl z tc (s1, gl1, e1)
              hc.1 hc.2 hs heq
          | groupCommand qid => simp [withinStagingCaps] at hc
          | customCommand tag => simp [withinStagingCaps] at hc
          | batchCommand tag => simp [withinStagingCaps] at hc
          | primitiveCommand tag => simp [withinStagingCaps] at hc
          | unknownCommand => simp [withinStagingCaps] at hc
        exact ih s1 gl1 (s2, gl2, e2)
          (fun c' hc' => h c' (List.mem_cons_of_mem _ hc')) hs1 heq2

/-- C4: for Triangles dispatch, (1) whenever appending a command's counts to
the pending staging totals would exceed a capacity, the pending batch is
drawn first and only then is the command staged; (2) along any sequence of
dispatched Triangles commands whose own counts are below the capacities, the
filled vertex/index totals never exceed the staging capacities; (3), (4) a
single command whose own vertex (resp. index) count exceeds the total
capacity is a precondition violation (the dev-build assertion fails). -/
theorem claim_C4_staging_capacity :
    (∀ (caps : BufCaps) (d2 : Bool) (table : List RenderQueue) (fuel : Nat)
        (s : BatchState) (gl : GLState) (z : Int) (tc : TriCmd),
      (s.filledVertex + tc.vertexCount > caps.vboSize ∨
        s.filledIndex + tc.indexCount > caps.indexVboSize) →
      tc.vertexCount < caps.vboSize → tc.indexCount < caps.indexVboSize →
      processRenderCommand caps d2 table fuel s gl
          { globalOrder := z, kind := CommandKind.trianglesCommand tc } =
        some (queueTriangleCommand (drawBatchedTriangles s).1 tc, gl,
          (drawBatchedTriangles s).2)) ∧
    (∀ (caps : BufCaps) (d2 : Bool) (table : List RenderQueue) (fuel : Nat)
        (cmds : List RenderCommand) (s : BatchState) (gl : GLState)
        (out : ProcResult),
      (∀ c ∈ cmds, withinStagingCaps caps c = true) →
      stagingInv caps s →
      processListWith (processRenderCommand caps d2 table fuel) s gl cmds =
        some out →
      out.1.filledVertex ≤ caps.vboSize ∧
        out.1.filledIndex ≤ caps.indexVboSize) ∧
    (∀ (caps : BufCaps) (d2 : Bool) (table : List RenderQueue) (fuel : Nat)
        (s : BatchState) (gl : GLState) (z : Int) (tc : TriCmd),
      caps.vboSize < tc.vertexCount →
      processRenderCommand caps d2 table fuel s gl
          { globalOrder := z, kind := CommandKind.trianglesCommand tc } = none) ∧
    (∀ (caps : BufCaps) (d2 : Bool) (table : List RenderQueue) (fuel : Nat)
        (s : BatchState) (gl : GLState) (z : Int) (tc : TriCmd),
      caps.indexVboSize < tc.indexCount →
      processRenderCommand caps d2 table fuel s gl
          { globalOrder := z, kind := CommandKind.trianglesCommand tc } = none) := by
  refine ⟨?_, ?_, ?_, ?_⟩
  · intro caps d2 table fuel s gl z tc hov hv hi
    rw [processRenderCommand_triangles, if_pos hov, if_pos ⟨hv, hi⟩]
  · intro caps d2 table fuel cmds s gl out h hs hp
    exact (processList_staging_inv caps d2 table fuel cmds s gl out h hs hp).2
  · intro caps d2 table fuel s gl z tc hbig
    rw [processRenderCommand_triangles, if_pos (Or.inl (by omega)),
      if_neg (by omega)]
  · intro caps d2 table fuel s gl z tc hbig
    rw [processRenderCommand_triangles, if_pos (Or.inr (by omega)),
      if_neg (by omega)]

/-- Witness for C4: with capacities (10,10) and totals (8,8) staged, a
(4,4) command triggers a flush and is then staged alone; a command with 11
vertices against capacity 10 fails the precondition. -/
theorem claim_C4_witness :
    (processRenderCommand { vboSize := 10, indexVboSize := 10 } false [] 0
        { queuedTriangleCommands :=
            [{ materialID := 5, skipBatching := false, vertexCount := 8, indexCount := 8 }],
          filledVertex := 8, filledIndex := 8 }
        glAllOff
        { globalOrder := 0,
          kind := CommandKind.trianglesCommand
            { materialID := 5, skipBatching := false, vertexCount := 4, indexCount := 4 } } =
      some (queueTriangleCommand
        (drawBatchedTriangles
          { queuedTriangleCommands :=
              [{ materialID := 5, skipBatching := false, vertexCount := 8, indexCount := 8 }],
            filledVertex := 8, filledIndex := 8 }).1
        { materialID := 5, skipBatching := false, vertexCount := 4, indexCount := 4 },
        glAllOff,
        (drawBatchedTriangles
          { queuedTriangleCommands :=
              [{ materialID := 5, skipBatching := false, vertexCount := 8, indexCount := 8 }],
            filledVertex := 8, filledIndex := 8 }).2)) ∧
    (processRenderCommand { vboSize := 10, indexVboSize := 10 } false [] 0
        BatchState.empty glAllOff
        { globalOrder := 0,
          kind := CommandKind.trianglesCommand
            { materialID := 5, skipBatching := false, vertexCount := 11, indexCount := 4 } } =
      none) :=
  ⟨claim_C4_staging_capacity.1 { vboSize := 10, indexVboSize := 10 } false [] 0
      _ glAllOff 0 _ (by decide) (by decide) (by decide),
   claim_C4_staging_capacity.2.2.1 { vboSize := 10, indexVboSize := 10 } false [] 0
      BatchState.empty glAllOff 0 _ (by decide)⟩

/-- `compareRenderCommand` (CCRenderer.cpp lines 50-53): strict comparison
of ordering keys, the comparator handed to `std::sort`. -/
def compareRenderCommand (a b : RenderCommand) : Bool :=
  decide (a.globalOrder < b.globalOrder)

/-- Sortedness with respect to `compareRenderCommand` as guaranteed by
`std::sort`: no element strictly precedes an earlier one. -/
def sortedWrtOrder (l : List RenderCommand) : Prop :=
  l.Pairwise (fun a b => compareRenderCommand b a = false)

/-- The contract of `RenderQueue::sort`: `GLOBALZ_NEG` and `GLOBALZ_POS`
are replaced by comparator-sorted permutations of themselves (`std::sort`
guarantees nothing further — in particular not stability) and the other
three sub-queues are left untouched. `q` is the queue before the call, `q'`
a possible queue after it. -/
def RenderQueue.sortSpec (q q' : RenderQueue) : Prop :=
  q'.negZ.Perm q.negZ ∧ sortedWrtOrder q'.negZ ∧
  q'.posZ.Perm q.posZ ∧ sortedWrtOrder q'.posZ ∧
  q'.opaque3D = q.opaque3D ∧ q'.transparent3D = q.transparent3D ∧
  q'.zeroZ = q.zeroZ

/-- The renderer: queue table (`_renderGroups`, index 0 is the default
queue), group stack (`_commandGroupStack`, head = top of stack), the
`_isRendering` reentrancy flag, `_glViewAssigned`, and the triangle staging
state. -/
structure Renderer where
  renderGroups : List RenderQueue
  commandGroupStack : List Int
  isRendering : Bool
  glViewAssigned : Bool
  batch : BatchState
deriving DecidableEq, Repr

/-- A freshly constructed renderer: one default queue (id 0) and the group
stack initialised with `DEFAULT_RENDER_QUEUE = 0`. -/
def Renderer.init : Renderer :=
  { renderGroups := [RenderQueue.emptyQ], commandGroupStack := [0],
    isRendering := false, glViewAssigned := false, batch := BatchState.empty }

/-- `Renderer::addCommand(command, renderQueue)`: asserts (dev build) that
no frame is in progress, that the queue id is non-negative and that the
command's kind tag is not the unknown sentinel, then appends the command to
the chosen queue. Indexing `_renderGroups` out of range is undefined
behaviour in the code and is modelled as a precondition (`none`). -/
def Renderer.addCommandAt (r : Renderer) (command : RenderCommand)
    (renderQueue : Int) : Option Renderer :=
  if r.isRendering then none
  else if renderQueue < 0 then none
  else if command.kind = CommandKind.unknownCommand then none
  else if h : renderQueue.toNat < r.renderGroups.length then
    let updated := (r.renderGroups.get ⟨renderQueue.toNat, h⟩).push_back command
    some { r with renderGroups := r.renderGroups.set renderQueue.toNat updated }
  else none

/-- `Renderer::addCommand(command)`: route to the queue at the top of the
group stack (`top` on an empty `std::stack` is undefined behaviour). -/
def Renderer.addCommand (r : Renderer) (command : RenderCommand) : Option Renderer :=
  match r.commandGroupStack with
  | [] => none
  | top :: _ => r.addCommandAt command top

/-- `Renderer::pushGroup`: push a routing target; rejected while rendering. -/
def Renderer.pushGroup (r : Renderer) (renderQueueID : Int) : Option Renderer :=
  if r.isRendering then none
  else some { r with commandGroupStack := renderQueueID :: r.commandGroupStack }

/-- `Renderer::popGroup`: pop the routing target; rejected while rendering. -/
def Renderer.popGroup (r : Renderer) : Option Renderer :=
  if r.isRendering then none
  else
    match r.commandGroupStack with
    | [] => none
    | _ :: rest => some { r with commandGroupStack := rest }

/-- `Renderer::createRenderQueue`: append a fresh empty queue and return its
index (`_renderGroups.size() - 1` after the push). -/
def Renderer.createRenderQueue (r : Renderer) : Int × Renderer :=
  (Int.ofNat r.renderGroups.length,
    { r with renderGroups := r.renderGroups ++ [RenderQueue.emptyQ] })

/-- `RenderQueue::clear`: empty all five sub-queues. -/
def RenderQueue.clear (_ : RenderQueue) : RenderQueue := RenderQueue.emptyQ

/-- `Renderer::clean`: clear every queue's contents (the table itself is
kept) and reset the triangle staging state. -/
def Renderer.clean (r : Renderer) : Renderer :=
  { r with renderGroups := r.renderGroups.map RenderQueue.clear,
           batch := BatchState.empty }

/-- `Renderer::render`, relationally (the sort step is nondeterministic):
when the GL view is assigned, every queue is sorted per the `std::sort`
contract, the root queue (id 0) is visited against the sorted table, and
`clean` then clears all queues and the staging state; with no GL view only
the clean-up happens. `_isRendering` is false again on exit.
The post-frame renderer state (queue contents cleared over the sorted
table, staging state reset, reentrancy flag lowered) is factored out as
`Renderer.afterSweepClean`. -/
def Renderer.afterSweepClean (r : Renderer) (table : List RenderQueue) : Renderer :=
  { renderGroups := table.map RenderQueue.clear
    commandGroupStack := r.commandGroupStack
    isRendering := false
    glViewAssigned := r.glViewAssigned
    batch := BatchState.empty }

/-- The render relation described above. -/
def Renderer.renderRel (caps : BufCaps) (d2 : Bool) (fuel : Nat) (r : Renderer)
    (gl : GLState) (r' : Renderer) (gl' : GLState) (evs : List GLEvent) : Prop :=
  if r.glViewAssigned then
    ∃ sorted : List RenderQueue,
      List.Forall₂ RenderQueue.sortSpec r.renderGroups sorted ∧
      ∃ s' : BatchState,
        visitRenderQueue caps d2 sorted fuel (sorted.headD RenderQueue.emptyQ)
            r.batch gl = some (s', gl', evs) ∧
        r' = r.afterSweepClean sorted
  else
    evs = [] ∧ gl' = gl ∧ r' = r.afterSweepClean r.renderGroups

lemma visitRenderQueueWith_restores (d2 : Bool)
    (proc : BatchState → GLState → RenderCommand → Option ProcResult)
    (q : RenderQueue) (s : BatchState) (gl : GLState) (out : ProcResult)
    (h : visitRenderQueueWith d2 proc q s gl = some out) :
    out.2.1.depthTest = gl.depthTest ∧ out.2.1.cull = gl.cull ∧
      out.2.1.depthWrite = gl.depthWrite := by
  unfold visitRenderQueueWith at h
  rcases Option.bind_eq_some.mp h with ⟨r1, _, h⟩
  rcases Option.bind_eq_some.mp h with ⟨r2, _, h⟩
  rcases Option.bind_eq_some.mp h with ⟨r3, _, h⟩
  rcases Option.bind_eq_some.mp h with ⟨r4, _, h⟩
  rcases Option.map_eq_some'.mp h with ⟨r5, _, hout⟩
  rw [← hout]
  exact ⟨rfl, rfl, rfl⟩

lemma visitRenderQueueWith_emptyQ (d2 : Bool)
    (proc : BatchState → GLState → RenderCommand → Option ProcResult)
    (s : BatchState) (gl : GLState) :
    visitRenderQueueWith d2 proc RenderQueue.emptyQ s gl = some (s, gl, []) :=
  rfl

/-- A renderer ready to render: default queue, GL view assigned, idle. -/
def rendererReady : Renderer :=
  { renderGroups := [RenderQueue.emptyQ], commandGroupStack := [0],
    isRendering := false, glViewAssigned := true, batch := BatchState.empty }

/-- C7: the ambient-state snapshot (depth test, cull, depth-write mask)
saved by `visitRenderQueue` before the five-bucket visitation is restored
verbatim when the visitation completes — for any queue, any table and any
recursion depth, hence also for recursively swept child queues; visiting an
empty queue is a complete no-op; and `render()` with zero submitted commands
issues zero events (in particular zero draw calls) and leaves the ambient
state identical to its pre-call value. -/
theorem claim_C7_ambient_state_restore :
    (∀ (caps : BufCaps) (d2 : Bool) (table : List RenderQueue) (fuel : Nat)
        (q : RenderQueue) (s : BatchState) (gl : GLState) (out : ProcResult),
      visitRenderQueue caps d2 table fuel q s gl = some out →
      out.2.1.depthTest = gl.depthTest ∧ out.2.1.cull = gl.cull ∧
        out.2.1.depthWrite = gl.depthWrite) ∧
    (∀ (caps : BufCaps) (d2 : Bool) (table : List RenderQueue) (fuel : Nat)
        (s : BatchState) (gl : GLState),
      visitRenderQueue caps d2 table fuel RenderQueue.emptyQ s gl =
        some (s, gl, [])) ∧
    (∀ (caps : BufCaps) (d2 : Bool) (fuel : Nat) (r : Renderer) (gl : GLState)
        (r' : Renderer) (gl' : GLState) (evs : List GLEvent),
      r.renderGroups = [RenderQueue.emptyQ] →
      Renderer.renderRel caps d2 fuel r gl r' gl' evs →
      evs = [] ∧ gl' = gl) := by
  refine ⟨?_, ?_, ?_⟩
  · intro caps d2 table fuel q s gl out h
    exact visitRenderQueueWith_restores _ _ _ _ _ _ h
  · intro caps d2 table fuel s gl
    exact visitRenderQueueWith_emptyQ _ _ _ _
  · intro caps d2 fuel r gl r' gl' evs hrg hrel
    unfold Renderer.renderRel at hrel
    by_cases hga : r.glViewAssigned
    · rw [if_pos hga] at hrel
      rcases hrel with ⟨sorted, hf, s', hv, _⟩
      rw [hrg] at hf
      cases hf with
      | cons hspec htail =>
        cases htail
        rename_i q1 _
        obtain ⟨n, o, t, z0, p0⟩ := q1
        rcases hspec with ⟨hp1, _, hp2, _, ho, ht, hz⟩
        simp only [RenderQueue.emptyQ] at hp1 hp2 ho ht hz
        rw [List.perm_nil] at hp1 hp2
        subst hp1; subst hp2; subst ho; subst ht; subst hz
        have hv2 : (some (r.batch, gl, []) : Option ProcResult) =
            some (s', gl', evs) := hv
        cases hv2
        exact ⟨rfl, rfl⟩
    · rw [if_neg hga] at hrel
      exact ⟨hrel.1, hrel.2.1⟩

/-- Witness for C7: a render of a ready renderer with zero submitted
commands produces no events and returns the ambient state unchanged. -/
theorem claim_C7_witness : ([] : List GLEvent) = [] ∧ glAllOff = glAllOff :=
  claim_C7_ambient_state_restore.2.2 caps0 false 0 rendererReady glAllOff
    rendererReady glAllOff [] rfl
    (by
      exact ⟨[RenderQueue.emptyQ],
        List.Forall₂.cons
          ⟨List.Perm.nil, List.Pairwise.nil, List.Perm.nil, List.Pairwise.nil,
            rfl, rfl, rfl⟩ List.Forall₂.nil,
        BatchState.empty, rfl, rfl⟩)

/-- C8: `addCommand(cmd, id)` is a precondition violation while a frame is
in progress, for a negative queue id, or for a command whose kind tag is the
unknown sentinel; otherwise (for an id inside the table) it appends the
command to exactly the queue with that id and modifies no other queue; and
the one-argument overload routes to the id at the top of the Group Stack. -/
theorem claim_C8_addCommand_contract :
    (∀ (r : Renderer) (command : RenderCommand) (renderQueue : Int),
      r.isRendering = true → r.addCommandAt command renderQueue = none) ∧
    (∀ (r : Renderer) (command : RenderCommand) (renderQueue : Int),
      renderQueue < 0 → r.addCommandAt command renderQueue = none) ∧
    (∀ (r : Renderer) (command : RenderCommand) (renderQueue : Int),
      command.kind = CommandKind.unknownCommand →
      r.addCommandAt command renderQueue = none) ∧
    (∀ (r : Renderer) (command : RenderCommand) (renderQueue : Int)
      (h3 : renderQueue.toNat < r.renderGroups.length),
      r.isRendering = false → ¬renderQueue < 0 →
      command.kind ≠ CommandKind.unknownCommand →
      ∃ r', r.addCommandAt command renderQueue = some r' ∧
        r'.renderGroups.get? renderQueue.toNat =
          some ((r.renderGroups.get ⟨renderQueue.toNat, h3⟩).push_back command) ∧
        ∀ j, j ≠ renderQueue.toNat →
          r'.renderGroups.get? j = r.renderGroups.get? j) ∧
    (∀ (r : Renderer) (command : RenderCommand) (top : Int) (rest : List Int),
      r.commandGroupStack = top :: rest →
      r.addCommand command = r.addCommandAt command top) := by
  refine ⟨?_, ?_, ?_, ?_, ?_⟩
  · intro r command renderQueue h
    unfold Renderer.addCommandAt
    rw [if_pos h]
  · intro r command renderQueue h
    by_cases hr : r.isRendering
    · unfold Renderer.addCommandAt; rw [if_pos hr]
    · unfold Renderer.addCommandAt; rw [if_neg hr, if_pos h]
  · intro r command renderQueue h
    by_cases hr : r.isRendering
    · unfold Renderer.addCommandAt; rw [if_pos hr]
    · by_cases hq : renderQueue < 0
      · unfold Renderer.addCommandAt; rw [if_neg hr, if_pos hq]
      · unfold Renderer.addCommandAt; rw [if_neg hr, if_neg hq, if_pos h]
  · intro r command renderQueue h3 h0 h1 h2
    refine ⟨{ r with renderGroups := r.renderGroups.set renderQueue.toNat ((r.renderGroups.get ⟨renderQueue.toNat, h3⟩).push_back command) }, ?_, ?_, ?_⟩
    · unfold Renderer.addCommandAt
      rw [if_neg (by rw [h0]; exact Bool.false_ne_true), if_neg h1, if_neg h2,
        dif_pos h3]
    · exact List.get?_set_eq_of_lt _ h3
    · intro j hj
      exact List.get?_set_ne _ _ (fun hh => hj hh.symm)
  · intro r command top rest h
    unfold Renderer.addCommand
    rw [h]

/-- Witness for C8: adding a zero-order command to queue 0 of a fresh
renderer succeeds and stores it in that queue's flattened contents. -/
theorem claim_C8_witness :
    ∃ r', Renderer.init.addCommandAt customMid 0 = some r' ∧
      r'.renderGroups.get? 0 =
        some ((Renderer.init.renderGroups.get ⟨0, by decide⟩).push_back customMid) ∧
      ∀ j, j ≠ 0 → r'.renderGroups.get? j = Renderer.init.renderGroups.get? j :=
  claim_C8_addCommand_contract.2.2.2.1 Renderer.init customMid 0 (by decide)
    (by decide) (by decide) (by decide)


/-- The mutating entry points of the renderer between frames, as an
operation language for stating lifetime properties. -/
inductive RendererOp where
  | addAt (command : RenderCommand) (renderQueue : Int)
  | addTop (command : RenderCommand)
  | createQueue
  | pushGroup (renderQueueID : Int)
  | popGroup
  | clean
deriving DecidableEq, Repr

/-- Apply one renderer operation. -/
def Renderer.applyOp (r : Renderer) : RendererOp → Option Renderer
  | RendererOp.addAt command renderQueue => r.addCommandAt command renderQueue
  | RendererOp.addTop command => r.addCommand command
  | RendererOp.createQueue => some (r.createRenderQueue).2
  | RendererOp.pushGroup renderQueueID => r.pushGroup renderQueueID
  | RendererOp.popGroup => r.popGroup
  | RendererOp.clean => some r.clean

/-- Apply a sequence of renderer operations. -/
def Renderer.runOps (r : Renderer) : List RendererOp → Option Renderer
  | [] => some r
  | o :: os =>
    match r.applyOp o with
    | none => none
    | some r' => r'.runOps os

lemma addCommandAt_length (r r' : Renderer) (command : RenderCommand)
    (renderQueue : Int) (h : r.addCommandAt command renderQueue = some r') :
    r'.renderGroups.length = r.renderGroups.length := by
  simp only [Renderer.addCommandAt] at h
  split at h
  · cases h
  · split at h
    · cases h
    · split at h
      · cases h
      · split at h
        · cases h
          exact List.length_set _ _ _
        · cases h

lemma applyOp_length (r r' : Renderer) (o : RendererOp)
    (h : r.applyOp o = some r') :
    r.renderGroups.length ≤ r'.renderGroups.length := by
  cases o with
  | addAt command renderQueue =>
    simp only [Renderer.applyOp] at h
    exact Nat.le_of_eq (addCommandAt_length _ _ _ _ h).symm
  | addTop command =>
    simp only [Renderer.applyOp, Renderer.addCommand] at h
    split at h
    · cases h
    · exact Nat.le_of_eq (addCommandAt_length _ _ _ _ h).symm
  | createQueue =>
    simp only [Renderer.applyOp] at h
    cases h
    simp [Renderer.createRenderQueue]
  | pushGroup renderQueueID =>
    simp only [Renderer.applyOp, Renderer.pushGroup] at h
    split at h
    · cases h
    · cases h; exact Nat.le_refl _
  | popGroup =>
    simp only [Renderer.applyOp, Renderer.popGroup] at h
    split at h
    · cases h
    · split at h
      · cases h
      · cases h; exact Nat.le_refl _
  | clean =>
    simp only [Renderer.applyOp] at h
    cases h
    simp [Renderer.clean]

lemma runOps_length (ops : List RendererOp) :
    ∀ (r r' : Renderer), r.runOps ops = some r' →
      r.renderGroups.length ≤ r'.renderGroups.length := by
  induction ops with
  | nil =>
    intro r r' h
    simp only [Renderer.runOps] at h
    cases h
    exact Nat.le_refl _
  | cons o os ih =>
    intro r r' h
    simp only [Renderer.runOps] at h
    split at h
    · cases h
    · rename_i r1 heq
      exact Nat.le_trans (applyOp_length _ _ _ heq) (ih r1 r' h)

lemma push_back_mem_flatten (q : RenderQueue) (c : RenderCommand) :
    c ∈ (q.push_back c).flatten := by
  unfold RenderQueue.push_back
  split
  · simp [RenderQueue.flatten]
  · split
    · simp [RenderQueue.flatten]
    · simp [RenderQueue.flatten]

/-- C9: `createQueue()` appends a new empty Bucket Queue and returns its
index; across any sequence of renderer operations the queue table never
shrinks, so the ids returned by successive `createQueue()` calls are
strictly increasing and never reused within a renderer lifetime; and
`addCommand(cmd, id)` routes the command only into the queue with that id:
every other queue is unchanged and the command appears in the target
queue's flattened indexed contents. -/
theorem claim_C9_createQueue_ids :
    (∀ r : Renderer,
      (r.createRenderQueue).1 = Int.ofNat r.renderGroups.length ∧
      (r.createRenderQueue).2.renderGroups.length = r.renderGroups.length + 1 ∧
      (r.createRenderQueue).2.renderGroups.get? r.renderGroups.length =
        some RenderQueue.emptyQ) ∧
    (∀ (r r' : Renderer) (ops : List RendererOp),
      r.runOps ops = some r' →
      r.renderGroups.length ≤ r'.renderGroups.length) ∧
    (∀ (r r' : Renderer) (ops : List RendererOp),
      (r.createRenderQueue).2.runOps ops = some r' →
      (r.createRenderQueue).1 < (r'.createRenderQueue).1) ∧
    (∀ (r r' : Renderer) (command : RenderCommand) (renderQueue : Int),
      r.addCommandAt command renderQueue = some r' →
      (∀ j, j ≠ renderQueue.toNat →
        r'.renderGroups.get? j = r.renderGroups.get? j) ∧
      ∃ q, r.renderGroups.get? renderQueue.toNat = some q ∧
        r'.renderGroups.get? renderQueue.toNat = some (q.push_back command) ∧
        ∃ i, (q.push_back command).getAt i = some command) := by
  refine ⟨?_, ?_, ?_, ?_⟩
  · intro r
    refine ⟨rfl, by simp [Renderer.createRenderQueue], ?_⟩
    show (r.renderGroups ++ [RenderQueue.emptyQ]).get? r.renderGroups.length =
      some RenderQueue.emptyQ
    exact List.get?_concat_length _ _
  · intro r r' ops h
    exact runOps_length ops r r' h
  · intro r r' ops h
    have h1 := runOps_length ops _ _ h
    have h2 : (r.createRenderQueue).2.renderGroups.length =
        r.renderGroups.length + 1 := by
      simp [Renderer.createRenderQueue]
    rw [h2] at h1
    show Int.ofNat r.renderGroups.length < Int.ofNat r'.renderGroups.length
    exact Int.ofNat_lt.mpr (by omega)
  · intro r r' command renderQueue h
    simp only [Renderer.addCommandAt] at h
    split at h
    · cases h
    · split at h
      · cases h
      · split at h
        · cases h
        · split at h
          · rename_i h3
            cases h
            refine ⟨?_, ?_⟩
            · intro j hj
              exact List.get?_set_ne _ _ (fun hh => hj hh.symm)
            · refine ⟨r.renderGroups.get ⟨renderQueue.toNat, h3⟩,
                List.get?_eq_get h3, List.get?_set_eq_of_lt _ h3, ?_⟩
              rcases List.mem_iff_get?.mp
                (push_back_mem_flatten
                  (r.renderGroups.get ⟨renderQueue.toNat, h3⟩) command) with ⟨i, hi⟩
              exact ⟨i, hi⟩
          · cases h

/-- Witness for C9: on a fresh renderer, `createQueue()` returns id 1 and a
subsequent `createQueue()` returns the strictly larger id 2. -/
theorem claim_C9_witness :
    (Renderer.init.createRenderQueue).1 <
      ((Renderer.init.createRenderQueue).2.createRenderQueue).1 :=
  claim_C9_createQueue_ids.2.2.1 Renderer.init
    ((Renderer.init.createRenderQueue).2) [] rfl

/-- All submitted commands pushed through `RenderQueue::push_back` into a
fresh queue — the classification path taken by `addCommand`. -/
def pushAll (cmds : List RenderCommand) : RenderQueue :=
  cmds.foldl RenderQueue.push_back RenderQueue.emptyQ

/-- Classification invariant established by `push_back`: the three 2D
sub-queues hold exactly the commands with negative / zero / positive
ordering key, and the 3D sub-queues (filled only by explicit 3D submission
paths outside this classification) stay empty. -/
def signInv (q : RenderQueue) : Prop :=
  (∀ c ∈ q.negZ, c.globalOrder < 0) ∧ (∀ c ∈ q.zeroZ, c.globalOrder = 0) ∧
  (∀ c ∈ q.posZ, 0 < c.globalOrder) ∧ q.opaque3D = [] ∧ q.transparent3D = []

lemma push_back_signInv (q : RenderQueue) (c : RenderCommand) (h : signInv q) :
    signInv (q.push_back c) := by
  rcases h with ⟨hn, hz, hp, ho, ht⟩
  unfold RenderQueue.push_back
  split
  · next hc =>
    refine ⟨?_, hz, hp, ho, ht⟩
    intro d hd
    rcases List.mem_append.mp hd with hd | hd
    · exact hn d hd
    · rcases List.mem_singleton.mp hd with rfl; exact hc
  · split
    · next hc1 hc2 =>
      refine ⟨hn, hz, ?_, ho, ht⟩
      intro d hd
      rcases List.mem_append.mp hd with hd | hd
      · exact hp d hd
      · rcases List.mem_singleton.mp hd with rfl; exact hc2
    · next hc1 hc2 =>
      refine ⟨hn, ?_, hp, ho, ht⟩
      intro d hd
      rcases List.mem_append.mp hd with hd | hd
      · exact hz d hd
      · rcases List.mem_singleton.mp hd with rfl; omega

lemma pushAll_signInv (cmds : List RenderCommand) : signInv (pushAll cmds) := by
  have main : ∀ (l : List RenderCommand) (q : RenderQueue), signInv q →
      signInv (l.foldl RenderQueue.push_back q) := by
    intro l
    induction l with
    | nil => intro q h; exact h
    | cons c cs ih =>
      intro q h
      exact ih _ (push_back_signInv q c h)
  exact main cmds RenderQueue.emptyQ
    ⟨fun c h => absurd h (List.not_mem_nil c),
     fun c h => absurd h (List.not_mem_nil c),
     fun c h => absurd h (List.not_mem_nil c), rfl, rfl⟩

lemma get?_append_of_sat {α : Type} (A B : List α) (P : α → Prop)
    (hA : ∀ a ∈ A, P a) (hB : ∀ b ∈ B, ¬ P b) (i : Nat) (x : α)
    (hx : (A ++ B).get? i = some x) (hp : P x) : i < A.length := by
  by_contra hge
  rw [List.get?_append_right (Nat.le_of_not_lt hge)] at hx
  exact hB x (List.get?_mem hx) hp

lemma get?_append_of_unsat {α : Type} (A B : List α) (P : α → Prop)
    (hA : ∀ a ∈ A, P a) (i : Nat) (x : α)
    (hx : (A ++ B).get? i = some x) (hp : ¬ P x) : A.length ≤ i := by
  by_contra hlt
  rw [List.get?_append (Nat.lt_of_not_le hlt)] at hx
  exact hp (hA x (List.get?_mem hx))

/-- C5: for every set of submitted commands, any queue satisfying the sort
contract has non-decreasing ordering keys within the NegativeZ and PositiveZ
buckets, its buckets hold exactly the commands of negative / zero / positive
key, its flattened order is NegativeZ ++ ZeroZ ++ PositiveZ, and under
flattened indexed access every NegativeZ command precedes every ZeroZ
command, which precedes every PositiveZ command. -/
theorem claim_C5_sort_order (cmds : List RenderCommand) (q' : RenderQueue)
    (h : RenderQueue.sortSpec (pushAll cmds) q') :
    (q'.negZ.Pairwise fun a b => a.globalOrder ≤ b.globalOrder) ∧
    (q'.posZ.Pairwise fun a b => a.globalOrder ≤ b.globalOrder) ∧
    (∀ c ∈ q'.negZ, c.globalOrder < 0) ∧
    (∀ c ∈ q'.zeroZ, c.globalOrder = 0) ∧
    (∀ c ∈ q'.posZ, 0 < c.globalOrder) ∧
    q'.flatten = q'.negZ ++ q'.zeroZ ++ q'.posZ ∧
    (∀ (i j : Nat) (a b : RenderCommand),
      q'.getAt i = some a → q'.getAt j = some b →
      a.globalOrder < 0 → b.globalOrder = 0 → i < j) ∧
    (∀ (i j : Nat) (a b : RenderCommand),
      q'.getAt i = some a → q'.getAt j = some b →
      a.globalOrder = 0 → 0 < b.globalOrder → i < j) := by
  rcases h with ⟨hpn, hsn, hpp, hsp, ho, ht, hz⟩
  rcases pushAll_signInv cmds with ⟨sn, sz, sp, so, st⟩
  have hnneg : ∀ c ∈ q'.negZ, c.globalOrder < 0 :=
    fun c hc => sn c (hpn.subset hc)
  have hzzero : ∀ c ∈ q'.zeroZ, c.globalOrder = 0 :=
    fun c hc => sz c (hz ▸ hc)
  have hppos : ∀ c ∈ q'.posZ, 0 < c.globalOrder :=
    fun c hc => sp c (hpp.subset hc)
  have hflat : q'.flatten = q'.negZ ++ q'.zeroZ ++ q'.posZ := by
    unfold RenderQueue.flatten
    rw [ho, ht, so, st]
    simp
  have sortedLE : ∀ l : List RenderCommand, sortedWrtOrder l →
      l.Pairwise fun a b => a.globalOrder ≤ b.globalOrder := by
    intro l hl
    refine hl.imp ?_
    intro a b hab
    have : ¬ (b.globalOrder < a.globalOrder) := by
      simpa [compareRenderCommand] using hab
    omega
  refine ⟨sortedLE _ hsn, sortedLE _ hsp, hnneg, hzzero, hppos, hflat, ?_, ?_⟩
  · intro i j a b ha hb hal hbz
    unfold RenderQueue.getAt at ha hb
    rw [hflat, List.append_assoc] at ha hb
    have hi : i < q'.negZ.length := by
      refine get?_append_of_sat _ _ (fun c => c.globalOrder < 0) hnneg ?_ i a ha hal
      intro c hc
      rcases List.mem_append.mp hc with hc | hc
      · have := hzzero c hc; omega
      · have := hppos c hc; omega
    have hj : q'.negZ.length ≤ j := by
      refine get?_append_of_unsat _ _ (fun c => c.globalOrder < 0) hnneg j b hb ?_
      omega
    omega
  · intro i j a b ha hb haz hbp
    unfold RenderQueue.getAt at ha hb
    rw [hflat] at ha hb
    have hi : i < (q'.negZ ++ q'.zeroZ).length := by
      refine get?_append_of_sat _ _ (fun c => c.globalOrder ≤ 0) ?_ ?_ i a ha (by omega)
      · intro c hc
        rcases List.mem_append.mp hc with hc | hc
        · have := hnneg c hc; omega
        · have := hzzero c hc; omega
      · intro c hc
        have := hppos c hc; omega
    have hj : (q'.negZ ++ q'.zeroZ).length ≤ j := by
      refine get?_append_of_unsat _ _ (fun c => c.globalOrder ≤ 0) ?_ j b hb (by omega)
      intro c hc
      rcases List.mem_append.mp hc with hc | hc
      · have := hnneg c hc; omega
      · have := hzzero c hc; omega
    omega

/-- A command with negative ordering key (for the sort scenarios). -/
def cmdNeg : RenderCommand := { globalOrder := -2, kind := CommandKind.customCommand 0 }

/-- A command with zero ordering key (for the sort scenarios). -/
def cmdZero : RenderCommand := { globalOrder := 0, kind := CommandKind.customCommand 1 }

/-- A command with positive ordering key (for the sort scenarios). -/
def cmdPos : RenderCommand := { globalOrder := 1, kind := CommandKind.customCommand 2 }

/-- Witness for C5: after classification of a positive, a negative and a
zero-key command, the flattened order is NegativeZ ++ ZeroZ ++ PositiveZ. -/
theorem claim_C5_witness :
    (pushAll [cmdPos, cmdNeg, cmdZero]).flatten =
      (pushAll [cmdPos, cmdNeg, cmdZero]).negZ ++
        (pushAll [cmdPos, cmdNeg, cmdZero]).zeroZ ++
        (pushAll [cmdPos, cmdNeg, cmdZero]).posZ :=
  (claim_C5_sort_order [cmdPos, cmdNeg, cmdZero]
    (pushAll [cmdPos, cmdNeg, cmdZero])
    ⟨List.Perm.refl _, by unfold sortedWrtOrder; decide,
      List.Perm.refl _, by unfold sortedWrtOrder; decide,
      rfl, rfl, rfl⟩).2.2.2.2.2.1

/-- The stability property the specification claims of `RenderQueue::sort`,
following the spec's words: within the NegativeZ and PositiveZ buckets,
commands with equal ordering keys keep their relative submission order in
every possible sort result. -/
def sortKeepsTieOrder : Prop :=
  ∀ (q q' : RenderQueue) (a b : RenderCommand),
    RenderQueue.sortSpec q q' → a.globalOrder = b.globalOrder →
    ([a, b].Sublist q.negZ → [a, b].Sublist q'.negZ) ∧
    ([a, b].Sublist q.posZ → [a, b].Sublist q'.posZ)

/-- First of two distinct commands sharing the ordering key `-1`. -/
def tieA : RenderCommand := { globalOrder := -1, kind := CommandKind.customCommand 0 }

/-- Second of two distinct commands sharing the ordering key `-1`. -/
def tieB : RenderCommand := { globalOrder := -1, kind := CommandKind.customCommand 1 }

/-- A queue whose NegativeZ bucket holds `tieA` before `tieB`. -/
def tieQIn : RenderQueue :=
  { negZ := [tieA, tieB], opaque3D := [], transparent3D := [], zeroZ := [], posZ := [] }

/-- The same queue with the two tied commands exchanged. -/
def tieQOut : RenderQueue :=
  { negZ := [tieB, tieA], opaque3D := [], transparent3D := [], zeroZ := [], posZ := [] }

/-- Counterexample to C6 as stated: exchanging two equal-key commands also
satisfies the `std::sort` contract (`RenderQueue::sort` uses `std::sort`,
which is not stable), so the sort does not guarantee that equal-key commands
keep their submission order. -/
theorem claim_C6_counterexample : ¬ sortKeepsTieOrder := by
  intro h
  have hspec : RenderQueue.sortSpec tieQIn tieQOut :=
    ⟨List.Perm.swap tieA tieB [], by unfold sortedWrtOrder; decide,
     List.Perm.nil, by unfold sortedWrtOrder; decide, rfl, rfl, rfl⟩
  have h2 := (h tieQIn tieQOut tieA tieB hspec rfl).1 (by decide)
  exact absurd h2 (by decide)

/-- The ordering-key comparison as a relation (for the executable stable
sort exhibiting one admissible `std::sort` result). -/
def cmdLE (a b : RenderCommand) : Prop := a.globalOrder ≤ b.globalOrder

instance : DecidableRel cmdLE :=
  fun a b => decidable_of_iff (a.globalOrder ≤ b.globalOrder) Iff.rfl

instance : IsTotal RenderCommand cmdLE := ⟨fun a b => Int.le_total _ _⟩

instance : IsTrans RenderCommand cmdLE := ⟨fun _ _ _ hab hbc => le_trans hab hbc⟩

/-- One admissible result of `RenderQueue::sort`: stable insertion sort of
the NegativeZ and PositiveZ buckets by ascending ordering key. -/
def sortModel (q : RenderQueue) : RenderQueue :=
  { q with
    negZ := List.insertionSort cmdLE q.negZ
    posZ := List.insertionSort cmdLE q.posZ }

lemma sorted_cmdLE_sortedWrtOrder (l : List RenderCommand)
    (h : l.Pairwise cmdLE) : sortedWrtOrder l := by
  refine h.imp ?_
  intro a b hab
  have : ¬ (b.globalOrder < a.globalOrder) := Int.not_lt.mpr hab
  simpa [compareRenderCommand] using this

/-- C6 (amended): `sort()` orders the NegativeZ and PositiveZ buckets by
ascending ordering key as some permutation of their submission order —
commands with equal keys may appear in either order, since `std::sort` is
not stable — and it leaves the ZeroZ, Opaque3D and Transparent3D buckets
entirely in submission order, with no reordering. The contract is
satisfiable: the stable insertion sort is one admissible result. -/
theorem claim_C6_sort_contract :
    (∀ q : RenderQueue, RenderQueue.sortSpec q (sortModel q)) ∧
    (∀ q q' : RenderQueue, RenderQueue.sortSpec q q' →
      sortedWrtOrder q'.negZ ∧ sortedWrtOrder q'.posZ ∧
      q'.negZ.Perm q.negZ ∧ q'.posZ.Perm q.posZ ∧
      q'.zeroZ = q.zeroZ ∧ q'.opaque3D = q.opaque3D ∧
      q'.transparent3D = q.transparent3D) := by
  constructor
  · intro q
    refine ⟨List.perm_insertionSort cmdLE q.negZ,
      sorted_cmdLE_sortedWrtOrder _ (List.sorted_insertionSort cmdLE q.negZ),
      List.perm_insertionSort cmdLE q.posZ,
      sorted_cmdLE_sortedWrtOrder _ (List.sorted_insertionSort cmdLE q.posZ),
      rfl, rfl, rfl⟩
  · intro q q' h
    rcases h with ⟨h1, h2, h3, h4, h5, h6, h7⟩
    exact ⟨h2, h4, h1, h3, h7, h5, h6⟩

/-- Witness for C6: the tie-swapped queue satisfies the amended contract for
the tie queue: sorted buckets, permuted NegativeZ, untouched other buckets. -/
theorem claim_C6_witness :
    sortedWrtOrder tieQOut.negZ ∧ sortedWrtOrder tieQOut.posZ ∧
    tieQOut.negZ.Perm tieQIn.negZ ∧ tieQOut.posZ.Perm tieQIn.posZ ∧
    tieQOut.zeroZ = tieQIn.zeroZ ∧ tieQOut.opaque3D = tieQIn.opaque3D ∧
    tieQOut.transparent3D = tieQIn.transparent3D :=
  claim_C6_sort_contract.2 tieQIn tieQOut
    ⟨List.Perm.swap tieA tieB [], by unfold sortedWrtOrder; decide,
     List.Perm.nil, by unfold sortedWrtOrder; decide, rfl, rfl, rfl⟩
